import Mathlib

/-!
Verification of the COBANKER backend's financial engine against its
specification.  The definitions below are a shallow embedding of the
JavaScript source:

* `Ledger` embeds the `POST /api/v1/transactions` handler of
  `backend/stable-server.js` (in-memory accounts and transactions).
* `FD` embeds `FixedDeposit.calculateMaturityAmount` and
  `FixedDeposit.prematureClose` of `src/models/Share.js`.
* `Dividends` embeds `Dividend.create` and `Dividend.distribute` of
  `src/models/Dividend.js`.
* `Shares` embeds `Share.transfer` and `Share.createTransaction` of
  `src/models/Share.js`.

Monetary quantities are modelled as exact rationals (ℚ); the compound
interest computations, which the source performs with `Math.pow` on
arbitrary (possibly fractional) exponents, are modelled over ℝ with real
exponentiation.  `Math.round(x * 100) / 100` is modelled exactly as
`⌊x * 100 + 1/2⌋ / 100` (JavaScript `Math.round` rounds half up).
HTTP parsing, authentication and Joi schema validation are outside the
engine (spec §1, §6): operations receive already-validated positive
amounts where the route guarantees them, and re-check what the handler
itself re-checks.
-/

/-- Equality of `Except` results is decidable when both components are;
used to evaluate the embedded operations on concrete inputs. -/
instance {ε α : Type} [DecidableEq ε] [DecidableEq α] :
    DecidableEq (Except ε α) := fun x y =>
  match x, y with
  | .error e, .error f => decidable_of_iff (e = f) (by simp)
  | .error _, .ok _ => isFalse (by simp)
  | .ok _, .error _ => isFalse (by simp)
  | .ok a, .ok b => decidable_of_iff (a = b) (by simp)

namespace Ledger

/-- Transaction types accepted by the handler
(`['deposit', 'withdrawal', 'transfer']`). -/
inductive TxType
  | deposit
  | withdrawal
  | transfer
deriving DecidableEq, Repr

/-- An in-memory account row as created by `POST /api/v1/accounts`.
The relational schema (`database-migration.sql`) additionally carries a
`minimum_balance` column (default 0.00), which we include so that
claims about it can be stated; the transaction handler never reads it. -/
structure Account where
  id : ℕ
  balance : ℚ
  minimum_balance : ℚ
deriving DecidableEq, Repr

/-- A transaction record as pushed onto the in-memory `transactions`
array by the handler. -/
structure Txn where
  account_id : ℕ
  type : TxType
  amount : ℚ
  balance_before : ℚ
  balance_after : ℚ
deriving DecidableEq, Repr

/-- The mutable in-memory store of `stable-server.js`:
`let accounts = []; let transactions = [];`. -/
structure LedgerState where
  accounts : List Account
  transactions : List Txn
deriving DecidableEq, Repr

/-- The business failures returned (as HTTP 400) by the handler. -/
inductive TxError
  | invalidAmount
  | accountNotFound
  | insufficientFunds
deriving DecidableEq, Repr

/-- The lookup `accounts.find(a => a.id === account_id)`. -/
def findAccount (s : LedgerState) (account_id : ℕ) : Option Account :=
  s.accounts.find? (fun a => a.id = account_id)

/-- The balance of the account the handler would operate on. -/
def getBalance (s : LedgerState) (account_id : ℕ) : Option ℚ :=
  (findAccount s account_id).map (fun a => a.balance)

/-- In-place mutation of the account found by `accounts.find`
(`account.balance = newBalance`): only the first row with the id is
updated. -/
def setBalance : List Account → ℕ → ℚ → List Account
  | [], _, _ => []
  | a :: rest, account_id, b =>
      if a.id = account_id then { a with balance := b } :: rest
      else a :: setBalance rest account_id b

/-- The balance the handler computes for each transaction type
(`newBalance`: `+= amount` for deposit, `-= amount` for withdrawal,
left at `account.balance` for transfer). -/
def newBalanceFor (ty : TxType) (b amount : ℚ) : ℚ :=
  match ty with
  | .deposit => b + amount
  | .withdrawal => b - amount
  | .transfer => b

/-- The `POST /api/v1/transactions` handler of `stable-server.js`
(lines 463–548).  After field/type presence checks it:
rejects `amount ≤ 0`; looks the account up (404-style error if absent);
for `withdrawal` rejects `account.balance < amount`; computes
`newBalance` (`+amount` for deposit, `-amount` for withdrawal, unchanged
for transfer); pushes the transaction record and overwrites the
account's balance.  An error leaves the store untouched (the handler
returns before mutating). -/
def createTransaction (s : LedgerState) (account_id : ℕ) (ty : TxType)
    (amount : ℚ) : LedgerState × Except TxError Txn :=
  if amount ≤ 0 then (s, .error .invalidAmount)
  else
    match findAccount s account_id with
    | none => (s, .error .accountNotFound)
    | some account =>
        if ty = .withdrawal ∧ account.balance < amount then
          (s, .error .insufficientFunds)
        else
          let newBalance : ℚ := newBalanceFor ty account.balance amount
          let txn : Txn :=
            { account_id := account_id, type := ty, amount := amount,
              balance_before := account.balance,
              balance_after := newBalance }
          ({ accounts := setBalance s.accounts account_id newBalance,
             transactions := s.transactions ++ [txn] }, .ok txn)

/-- Running a sequence of handler calls against one account; the run
aborts at the first failure (a "sequence of successful calls" is one
where this returns `.ok`). -/
def runSeq (s : LedgerState) (account_id : ℕ) :
    List (TxType × ℚ) → Except TxError LedgerState
  | [] => .ok s
  | (ty, amount) :: rest =>
      match createTransaction s account_id ty amount with
      | (_, .error e) => .error e
      | (s', .ok _) => runSeq s' account_id rest

/-- Net effect of a list of operations: Σ deposits − Σ withdrawals
(transfers contribute nothing to the balance in this handler). -/
def netAmount : List (TxType × ℚ) → ℚ
  | [] => 0
  | (TxType.deposit, amount) :: rest => amount + netAmount rest
  | (TxType.withdrawal, amount) :: rest => -amount + netAmount rest
  | (TxType.transfer, _) :: rest => netAmount rest

/-- The per-entry ledger relation of spec §3: credits add, debits
subtract; (the handler's transfer entries record an unchanged
balance). -/
def entryConsistent (txn : Txn) : Prop :=
  (txn.type = TxType.deposit → txn.balance_after = txn.balance_before + txn.amount) ∧
  (txn.type = TxType.withdrawal → txn.balance_after = txn.balance_before - txn.amount)

lemma find?_setBalance (i : ℕ) (b : ℚ) :
    ∀ (l : List Account) (a : Account),
      l.find? (fun x => x.id = i) = some a →
      (setBalance l i b).find? (fun x => x.id = i) = some { a with balance := b } := by
  intro l
  induction l with
  | nil => intro a h; simp [List.find?] at h
  | cons hd tl ih =>
      intro a h
      by_cases hid : hd.id = i
      · rw [List.find?_cons_of_pos _ (by simp [hid])] at h
        cases h
        simp [setBalance, hid, List.find?_cons_of_pos]
      · rw [List.find?_cons_of_neg _ (by simp [hid])] at h
        simp only [setBalance, hid, if_false]
        rw [List.find?_cons_of_neg _ (by simp [hid])]
        exact ih a h

lemma setBalance_self (i : ℕ) :
    ∀ (l : List Account) (a : Account),
      l.find? (fun x => x.id = i) = some a →
      setBalance l i a.balance = l := by
  intro l
  induction l with
  | nil => intro a h; simp [List.find?] at h
  | cons hd tl ih =>
      intro a h
      by_cases hid : hd.id = i
      · rw [List.find?_cons_of_pos _ (by simp [hid])] at h
        cases h
        simp only [setBalance]
        rw [if_pos hid]
      · rw [List.find?_cons_of_neg _ (by simp [hid])] at h
        simp only [setBalance]
        rw [if_neg hid, ih a h]

/-- Anatomy of a successful handler call: the amount was positive, the
account was found, a withdrawal was funded, the transaction record is
appended and the account's balance becomes `newBalanceFor`. -/
lemma createTransaction_ok (s s' : LedgerState) (i : ℕ) (ty : TxType)
    (amount : ℚ) (txn : Txn)
    (h : createTransaction s i ty amount = (s', .ok txn)) :
    ∃ a, findAccount s i = some a ∧ 0 < amount ∧
      (ty = TxType.withdrawal → amount ≤ a.balance) ∧
      txn = { account_id := i, type := ty, amount := amount,
              balance_before := a.balance,
              balance_after := newBalanceFor ty a.balance amount } ∧
      s'.accounts = setBalance s.accounts i (newBalanceFor ty a.balance amount) ∧
      s'.transactions = s.transactions ++ [txn] := by
  unfold createTransaction at h
  split at h
  next => simp at h
  next hpos =>
    split at h
    next => simp at h
    next a heq =>
      split at h
      next => simp at h
      next hguard =>
        rw [Prod.mk.injEq] at h
        obtain ⟨h1, h2⟩ := h
        simp only [Except.ok.injEq] at h2
        subst h2
        refine ⟨a, heq, lt_of_not_le hpos, ?_, rfl, ?_, ?_⟩
        · intro hw
          by_contra hlt
          exact hguard ⟨hw, lt_of_not_le hlt⟩
        · rw [← h1]
        · rw [← h1]

lemma createTransaction_balance (s s' : LedgerState) (i : ℕ) (ty : TxType)
    (amount : ℚ) (txn : Txn) (b : ℚ)
    (hb : getBalance s i = some b)
    (h : createTransaction s i ty amount = (s', .ok txn)) :
    getBalance s' i = some (newBalanceFor ty b amount) ∧
    s'.transactions = s.transactions ++ [txn] ∧
    entryConsistent txn ∧ 0 < amount ∧
    (ty = TxType.withdrawal → amount ≤ b) := by
  obtain ⟨a, hfind, hpos, hfund, htxn, hacc, htr⟩ := createTransaction_ok s s' i ty amount txn h
  have hba : a.balance = b := by
    rw [getBalance, hfind] at hb
    simpa using hb
  subst hba
  constructor
  · rw [getBalance, findAccount, hacc,
      find?_setBalance i (newBalanceFor ty a.balance amount) s.accounts a hfind]
    rfl
  · refine ⟨htr, ?_, hpos, hfund⟩
    subst htxn
    cases ty <;> simp [entryConsistent, newBalanceFor]

/-- Corresponds to claim C1 as stated in the spec, refuted: on the
concrete store holding one account with balance 1000, a `transfer` of
300 succeeds, yet the balance afterwards is still 1000, not 700; no
destination account exists in the request at all. -/
theorem transfer_claim_counterexample :
    (createTransaction ⟨[⟨0, 1000, 0⟩], []⟩ 0 TxType.transfer 300).2 =
      .ok ⟨0, TxType.transfer, 300, 1000, 1000⟩ ∧
    getBalance (createTransaction ⟨[⟨0, 1000, 0⟩], []⟩ 0 TxType.transfer 300).1 0 =
      some 1000 ∧ (1000 : ℚ) ≠ 1000 - 300 := by
  refine ⟨?_, ?_, by norm_num⟩ <;>
    norm_num [createTransaction, findAccount, getBalance, setBalance,
      newBalanceFor, List.find?]

/-- C1 (amended): a `transfer` transaction on an existing account is
accepted but moves no funds: every account row is left exactly as it
was (there is no destination to credit — the request carries a single
`account_id`), and the appended record has
`balance_after = balance_before`. -/
theorem transfer_moves_no_funds (s s' : LedgerState) (i : ℕ)
    (amount : ℚ) (txn : Txn)
    (h : createTransaction s i TxType.transfer amount = (s', .ok txn)) :
    s'.accounts = s.accounts ∧
    s'.transactions = s.transactions ++ [txn] ∧
    txn.balance_after = txn.balance_before := by
  obtain ⟨a, hfind, _, _, htxn, hacc, htr⟩ :=
    createTransaction_ok s s' i TxType.transfer amount txn h
  refine ⟨?_, htr, ?_⟩
  · rw [hacc]
    exact setBalance_self i s.accounts a hfind
  · subst htxn; rfl

/-- Witness for `transfer_moves_no_funds` at a concrete input. -/
theorem transfer_moves_no_funds_witness :
    ({ accounts := [⟨0, (1000 : ℚ), 0⟩],
       transactions := [⟨0, TxType.transfer, 300, 1000, 1000⟩] } : LedgerState).accounts =
      (⟨[⟨0, 1000, 0⟩], []⟩ : LedgerState).accounts ∧
    ({ accounts := [⟨0, (1000 : ℚ), 0⟩],
       transactions := [⟨0, TxType.transfer, 300, 1000, 1000⟩] } : LedgerState).transactions =
      (⟨[⟨0, 1000, 0⟩], []⟩ : LedgerState).transactions ++
        [⟨0, TxType.transfer, 300, 1000, 1000⟩] ∧
    (⟨0, TxType.transfer, 300, 1000, 1000⟩ : Txn).balance_after =
      (⟨0, TxType.transfer, 300, 1000, 1000⟩ : Txn).balance_before :=
  transfer_moves_no_funds ⟨[⟨0, 1000, 0⟩], []⟩
    ⟨[⟨0, 1000, 0⟩], [⟨0, TxType.transfer, 300, 1000, 1000⟩]⟩ 0 300
    ⟨0, TxType.transfer, 300, 1000, 1000⟩
    (by norm_num [createTransaction, findAccount, setBalance, newBalanceFor,
      List.find?])

/-- Evaluation of the handler once the validations have found the
account and accepted the amount. -/
lemma createTransaction_found (s : LedgerState) (i : ℕ) (ty : TxType)
    (amount : ℚ) (a : Account)
    (hfind : findAccount s i = some a) (hnle : ¬ amount ≤ 0) :
    createTransaction s i ty amount =
      if ty = TxType.withdrawal ∧ a.balance < amount then
        (s, .error .insufficientFunds)
      else
        ({ accounts :=
             setBalance s.accounts i (newBalanceFor ty a.balance amount),
           transactions := s.transactions ++
             [{ account_id := i, type := ty, amount := amount,
                balance_before := a.balance,
                balance_after := newBalanceFor ty a.balance amount }] },
         .ok { account_id := i, type := ty, amount := amount,
               balance_before := a.balance,
               balance_after := newBalanceFor ty a.balance amount }) := by
  unfold createTransaction
  rw [if_neg hnle, hfind]

/-- Combined inductive invariant for a run: final balance is the
initial balance shifted by the net amount, and every transaction record
is either pre-existing or satisfies the per-type ledger relation. -/
lemma runSeq_invariant (i : ℕ) :
    ∀ (ops : List (TxType × ℚ)) (s s' : LedgerState) (b : ℚ),
      getBalance s i = some b → runSeq s i ops = .ok s' →
      getBalance s' i = some (b + netAmount ops) ∧
      (∀ txn ∈ s'.transactions, txn ∈ s.transactions ∨ entryConsistent txn) := by
  intro ops
  induction ops with
  | nil =>
      intro s s' b hb h
      simp only [runSeq, Except.ok.injEq] at h
      subst h
      exact ⟨by simp [hb, netAmount], fun t ht => Or.inl ht⟩
  | cons op rest ih =>
      intro s s' b hb h
      obtain ⟨ty, amount⟩ := op
      simp only [runSeq] at h
      cases hc : createTransaction s i ty amount with
      | mk s₁ r =>
          rw [hc] at h
          cases r with
          | error e => simp at h
          | ok txn =>
              simp only at h
              obtain ⟨hb₁, htr₁, hcons, _, _⟩ :=
                createTransaction_balance s s₁ i ty amount txn b hb hc
              obtain ⟨hfin, hall⟩ := ih s₁ s' (newBalanceFor ty b amount) hb₁ h
              constructor
              · rw [hfin]
                cases ty <;> simp [newBalanceFor, netAmount] <;> ring_nf
              · intro t ht
                rcases hall t ht with hmem | hcons'
                · rw [htr₁] at hmem
                  rcases List.mem_append.mp hmem with h1 | h2
                  · exact Or.inl h1
                  · right
                    rcases List.mem_singleton.mp h2 with rfl
                    exact hcons
                · exact Or.inr hcons'

/-- C2: over any sequence of successful handler calls on one account,
the final balance equals the initial balance plus deposits minus
withdrawals, and every record appended during the run satisfies
`balance_after = balance_before + amount` for deposits and
`balance_after = balance_before - amount` for withdrawals. -/
theorem balance_conservation (s s' : LedgerState) (i : ℕ)
    (ops : List (TxType × ℚ)) (b : ℚ)
    (hb : getBalance s i = some b) (h : runSeq s i ops = .ok s') :
    getBalance s' i = some (b + netAmount ops) ∧
    ∀ txn ∈ s'.transactions, txn ∈ s.transactions ∨ entryConsistent txn :=
  runSeq_invariant i ops s s' b hb h

/-- Witness for `balance_conservation`: one deposit of 500 and one
withdrawal of 200 on an account starting at 1000 end at 1300. -/
theorem balance_conservation_witness :
    getBalance
        ⟨[⟨0, (1300 : ℚ), 0⟩],
         [⟨0, TxType.deposit, 500, 1000, 1500⟩,
          ⟨0, TxType.withdrawal, 200, 1500, 1300⟩]⟩ 0 =
      some (1000 + netAmount [(TxType.deposit, 500), (TxType.withdrawal, 200)]) ∧
    ∀ txn ∈ (⟨[⟨0, (1300 : ℚ), 0⟩],
         [⟨0, TxType.deposit, 500, 1000, 1500⟩,
          ⟨0, TxType.withdrawal, 200, 1500, 1300⟩]⟩ : LedgerState).transactions,
      txn ∈ (⟨[⟨0, (1000 : ℚ), 0⟩], []⟩ : LedgerState).transactions ∨
        entryConsistent txn :=
  balance_conservation ⟨[⟨0, 1000, 0⟩], []⟩
    ⟨[⟨0, 1300, 0⟩],
     [⟨0, TxType.deposit, 500, 1000, 1500⟩,
      ⟨0, TxType.withdrawal, 200, 1500, 1300⟩]⟩ 0
    [(TxType.deposit, 500), (TxType.withdrawal, 200)] 1000
    (by norm_num [getBalance, findAccount, List.find?])
    (by norm_num [runSeq, createTransaction, findAccount, setBalance,
      newBalanceFor, List.find?])

/-- C3: for an existing account and a positive amount, a withdrawal is
rejected with `Insufficient funds` exactly when the balance is below
the amount; on rejection the whole store is untouched (no balance
write, no appended record), and otherwise the account's balance becomes
`balance_before - amount`. -/
theorem withdrawal_insufficient_funds (s : LedgerState) (i : ℕ)
    (amount : ℚ) (a : Account)
    (hfind : findAccount s i = some a) (hpos : 0 < amount) :
    ((createTransaction s i TxType.withdrawal amount).2 =
        .error TxError.insufficientFunds ↔ a.balance < amount) ∧
    (a.balance < amount →
      (createTransaction s i TxType.withdrawal amount).1 = s) ∧
    (¬ a.balance < amount →
      getBalance (createTransaction s i TxType.withdrawal amount).1 i =
          some (a.balance - amount) ∧
      (createTransaction s i TxType.withdrawal amount).2 =
        .ok { account_id := i, type := TxType.withdrawal, amount := amount,
              balance_before := a.balance,
              balance_after := a.balance - amount }) := by
  have hnle : ¬ amount ≤ 0 := not_le.mpr hpos
  have hstep := createTransaction_found s i TxType.withdrawal amount a hfind hnle
  by_cases hlt : a.balance < amount
  · have hres : createTransaction s i TxType.withdrawal amount =
        (s, .error TxError.insufficientFunds) := by
      rw [hstep, if_pos ⟨rfl, hlt⟩]
    rw [hres]
    exact ⟨by simp [hlt], fun _ => rfl, fun h => absurd hlt h⟩
  · have hres : createTransaction s i TxType.withdrawal amount =
        ({ accounts := setBalance s.accounts i (a.balance - amount),
           transactions := s.transactions ++
             [{ account_id := i, type := TxType.withdrawal, amount := amount,
                balance_before := a.balance,
                balance_after := a.balance - amount }] },
         .ok { account_id := i, type := TxType.withdrawal, amount := amount,
               balance_before := a.balance,
               balance_after := a.balance - amount }) := by
      rw [hstep, if_neg (fun hg => hlt hg.2)]
      rfl
    rw [hres]
    refine ⟨by simp [hlt], fun h => absurd h hlt, fun _ => ⟨?_, rfl⟩⟩
    rw [getBalance, findAccount]
    rw [find?_setBalance i (a.balance - amount) s.accounts a hfind]
    rfl

/-- Witness for `withdrawal_insufficient_funds`: the spec's §8 scenario,
balance 1000, withdrawal of 1500. -/
theorem withdrawal_insufficient_funds_witness :
    ((createTransaction ⟨[⟨0, 1000, 0⟩], []⟩ 0 TxType.withdrawal 1500).2 =
        .error TxError.insufficientFunds ↔
      (⟨0, (1000 : ℚ), 0⟩ : Account).balance < 1500) ∧
    ((⟨0, (1000 : ℚ), 0⟩ : Account).balance < 1500 →
      (createTransaction ⟨[⟨0, 1000, 0⟩], []⟩ 0 TxType.withdrawal 1500).1 =
        ⟨[⟨0, 1000, 0⟩], []⟩) ∧
    (¬ (⟨0, (1000 : ℚ), 0⟩ : Account).balance < 1500 →
      getBalance (createTransaction ⟨[⟨0, 1000, 0⟩], []⟩ 0
          TxType.withdrawal 1500).1 0 =
          some ((⟨0, (1000 : ℚ), 0⟩ : Account).balance - 1500) ∧
      (createTransaction ⟨[⟨0, 1000, 0⟩], []⟩ 0 TxType.withdrawal 1500).2 =
        .ok { account_id := 0, type := TxType.withdrawal, amount := 1500,
              balance_before := (⟨0, (1000 : ℚ), 0⟩ : Account).balance,
              balance_after := (⟨0, (1000 : ℚ), 0⟩ : Account).balance - 1500 }) :=
  withdrawal_insufficient_funds ⟨[⟨0, 1000, 0⟩], []⟩ 0 1500 ⟨0, 1000, 0⟩
    (by norm_num [findAccount, List.find?]) (by norm_num)

/-- Corresponds to claim C4 as stated in the spec, refuted: on an
account with balance 1000 and `minimum_balance` 500, a withdrawal of
700 is committed (the handler never reads `minimum_balance`), leaving
the balance at 300, strictly below the account's minimum. -/
theorem minimum_balance_counterexample :
    (createTransaction ⟨[⟨0, 1000, 500⟩], []⟩ 0 TxType.withdrawal 700).2 =
      .ok ⟨0, TxType.withdrawal, 700, 1000, 300⟩ ∧
    getBalance (createTransaction ⟨[⟨0, 1000, 500⟩], []⟩ 0
        TxType.withdrawal 700).1 0 = some 300 ∧
    (300 : ℚ) < 500 := by
  refine ⟨?_, ?_, by norm_num⟩ <;>
    norm_num [createTransaction, findAccount, getBalance, setBalance,
      newBalanceFor, List.find?]

/-- C4 (amended): the only floor the handler enforces is zero.  A
withdrawal fails rather than clamps whenever it would over-draw, so
starting from a non-negative balance, any sequence of successful calls
leaves the balance non-negative; the stored `minimum_balance` field is
never consulted, so `balance ≥ minimum_balance` is guaranteed only when
`minimum_balance ≤ 0`. -/
theorem balance_never_negative (s s' : LedgerState) (i : ℕ)
    (ops : List (TxType × ℚ)) (b b' : ℚ)
    (hb : getBalance s i = some b) (h0 : 0 ≤ b)
    (h : runSeq s i ops = .ok s') (hb' : getBalance s' i = some b') :
    0 ≤ b' := by
  induction ops generalizing s b with
  | nil =>
      simp only [runSeq, Except.ok.injEq] at h
      subst h
      rw [hb] at hb'
      cases hb'
      exact h0
  | cons op rest ih =>
      obtain ⟨ty, amount⟩ := op
      simp only [runSeq] at h
      cases hc : createTransaction s i ty amount with
      | mk s₁ r =>
          rw [hc] at h
          cases r with
          | error e => simp at h
          | ok txn =>
              simp only at h
              obtain ⟨hb₁, _, _, hpos, hfund⟩ :=
                createTransaction_balance s s₁ i ty amount txn b hb hc
              refine ih s₁ (newBalanceFor ty b amount) hb₁ ?_ h
              cases ty with
              | deposit => exact add_nonneg h0 (le_of_lt hpos)
              | withdrawal =>
                  exact sub_nonneg.mpr (hfund rfl)
              | transfer => exact h0

/-- Witness for `balance_never_negative`: balance 1000, a withdrawal of
1000 succeeds and leaves exactly 0. -/
theorem balance_never_negative_witness : (0 : ℚ) ≤ 0 :=
  balance_never_negative ⟨[⟨0, 1000, 0⟩], []⟩
    ⟨[⟨0, 0, 0⟩], [⟨0, TxType.withdrawal, 1000, 1000, 0⟩]⟩ 0
    [(TxType.withdrawal, 1000)] 1000 0
    (by norm_num [getBalance, findAccount, List.find?]) (by norm_num)
    (by norm_num [runSeq, createTransaction, findAccount, setBalance,
      newBalanceFor, List.find?])
    (by norm_num [getBalance, findAccount, List.find?])

end Ledger

namespace FD

/-- The rounding `Math.round(x * 100) / 100` on exact reals (JavaScript `Math.round`
rounds half toward positive infinity). -/
noncomputable def round2 (x : ℝ) : ℝ := (⌊x * 100 + 1 / 2⌋ : ℤ) / 100

/-- The `FD_STATUS` enumeration of `Share.js`. -/
inductive FDStatus
  | active
  | matured
  | premature_closed
  | renewed
  | pending
deriving DecidableEq, Repr

/-- The fields of a `FixedDeposit` instance that the maturity and
premature-closure computations touch. -/
structure FixedDeposit where
  principal_amount : ℚ
  interest_rate : ℚ
  tenure_months : ℚ
  maturity_amount : ℝ
  status : FDStatus

/-- The method `FixedDeposit.calculateMaturityAmount` (`Share.js` lines 444–462):
guard returning 0 when any of the three inputs is falsy (0), then
`principal * Math.pow(1 + (rate/100)/4, 4 * (tenure/12))` rounded to
two decimals.  `Math.pow` on exact values is real exponentiation. -/
noncomputable def calculateMaturityAmount (principal rate tenure : ℚ) : ℝ :=
  if principal = 0 ∨ rate = 0 ∨ tenure = 0 then 0
  else
    round2 ((principal : ℝ) *
      (1 + ((rate : ℝ) / 100) / 4) ^ ((4 : ℝ) * ((tenure : ℝ) / 12)))

/-- The maturity formula exactly as the specification words it
(§4.3): `principal × (1 + rate/400)^(4 × tenure_months/12)`, rounded
to 2 decimals. -/
noncomputable def maturitySpecFormula (principal rate tenure : ℚ) : ℝ :=
  round2 ((principal : ℝ) *
    (1 + (rate : ℝ) / 400) ^ ((4 * (tenure : ℝ)) / 12))

inductive FDError
  | notActive
deriving DecidableEq, Repr

/-- The method `FixedDeposit.prematureClose` (`Share.js` lines 672–708): only
active deposits may close; `reducedRate = max(0, interest_rate -
penaltyRate)` (the JS default for `penaltyRate` is 1); the payout
compounds the reduced rate over `monthsCompleted` — the whole months
elapsed since `start_date`, taken here as a parameter in place of the
wall clock — and overwrites `maturity_amount` with the rounded result
while the status becomes `premature_closed`. -/
noncomputable def prematureClose (fd : FixedDeposit) (monthsCompleted : ℕ)
    (penaltyRate : ℚ) : Except FDError FixedDeposit :=
  if fd.status ≠ FDStatus.active then .error .notActive
  else
    let reducedRate : ℚ := max 0 (fd.interest_rate - penaltyRate)
    let prematureAmount : ℝ := (fd.principal_amount : ℝ) *
      (1 + ((reducedRate : ℝ) / 100) / 4) ^
        ((4 : ℝ) * ((monthsCompleted : ℝ) / 12))
    .ok { fd with status := FDStatus.premature_closed,
                  maturity_amount := round2 prematureAmount }

lemma round2_mono {x y : ℝ} (h : x ≤ y) : round2 x ≤ round2 y := by
  unfold round2
  gcongr

/-- C5: for positive inputs the computed maturity amount is exactly
the specification's quarterly-compounding formula (a deterministic
function of principal, rate and tenure), and the golden value holds:
principal 100000 at 8% for 12 months yields exactly 108243.22. -/
theorem maturity_amount_formula (principal rate tenure : ℚ)
    (hp : 0 < principal) (hr : 0 < rate) (ht : 0 < tenure) :
    calculateMaturityAmount principal rate tenure =
      maturitySpecFormula principal rate tenure ∧
    calculateMaturityAmount 100000 8 12 = 108243.22 := by
  constructor
  · unfold calculateMaturityAmount maturitySpecFormula
    rw [if_neg (by push_neg; exact ⟨ne_of_gt hp, ne_of_gt hr, ne_of_gt ht⟩)]
    have hb : (1 + ((rate : ℝ) / 100) / 4) = 1 + (rate : ℝ) / 400 := by ring
    have he : (4 : ℝ) * ((tenure : ℝ) / 12) = (4 * (tenure : ℝ)) / 12 := by
      ring
    rw [hb, he]
  · unfold calculateMaturityAmount round2
    rw [if_neg (by norm_num)]
    have he : (4 : ℝ) * (((12 : ℚ) : ℝ) / 12) = ((4 : ℕ) : ℝ) := by norm_num
    rw [he, Real.rpow_natCast]
    have hfl : ⌊(((100000 : ℚ) : ℝ) *
        (1 + (((8 : ℚ) : ℝ) / 100) / 4) ^ (4 : ℕ)) * 100 + 1 / 2⌋ =
        (10824322 : ℤ) := by
      rw [Int.floor_eq_iff]
      norm_num
    rw [hfl]
    norm_num

/-- Witness for `maturity_amount_formula` at the golden input. -/
theorem maturity_amount_formula_witness :
    (calculateMaturityAmount 100000 8 12 =
      maturitySpecFormula 100000 8 12) ∧
    calculateMaturityAmount 100000 8 12 = 108243.22 :=
  maturity_amount_formula 100000 8 12 (by norm_num) (by norm_num)
    (by norm_num)

/-- Corresponds to claim C6 as stated in the spec, refuted: a deposit
booked at 8% for 6 months but left active for 24 elapsed months (the
source never caps `monthsCompleted` at `tenure_months`) pays out
1148.88 per 1000 principal on premature closure with the default 1%
penalty, strictly more than the 1040.40 full-term maturity amount
computed at booking. -/
theorem premature_close_counterexample :
    prematureClose ⟨1000, 8, 6, calculateMaturityAmount 1000 8 6,
        FDStatus.active⟩ 24 1 =
      .ok ⟨1000, 8, 6, 1148.88, FDStatus.premature_closed⟩ ∧
    calculateMaturityAmount 1000 8 6 = 1040.40 ∧
    ¬ ((1148.88 : ℝ) ≤ 1040.40) := by
  have hfull : calculateMaturityAmount 1000 8 6 = 1040.40 := by
    unfold calculateMaturityAmount round2
    rw [if_neg (by norm_num)]
    have he : (4 : ℝ) * (((6 : ℚ) : ℝ) / 12) = ((2 : ℕ) : ℝ) := by norm_num
    rw [he, Real.rpow_natCast]
    have hfl : ⌊(((1000 : ℚ) : ℝ) *
        (1 + (((8 : ℚ) : ℝ) / 100) / 4) ^ (2 : ℕ)) * 100 + 1 / 2⌋ =
        (104040 : ℤ) := by
      rw [Int.floor_eq_iff]
      norm_num
    rw [hfl]
    norm_num
  refine ⟨?_, hfull, by norm_num⟩
  unfold prematureClose
  rw [if_neg (by simp)]
  simp only [Except.ok.injEq, FixedDeposit.mk.injEq, true_and, and_true]
  unfold round2
  have hmax : max (0 : ℚ) (8 - 1) = 7 := by norm_num
  have he : (4 : ℝ) * (((24 : ℕ) : ℝ) / 12) = ((8 : ℕ) : ℝ) := by norm_num
  rw [hmax, he, Real.rpow_natCast]
  have hfl : ⌊(((1000 : ℚ) : ℝ) *
      (1 + (((7 : ℚ) : ℝ) / 100) / 4) ^ (8 : ℕ)) * 100 + 1 / 2⌋ =
      (114888 : ℤ) := by
    rw [Int.floor_eq_iff]
    norm_num
  rw [hfl]
  norm_num

/-- C6 (amended): premature closure of an active deposit overwrites
`maturity_amount` with the payout recomputed at the effective rate
`max(0, rate − penalty)` compounded quarterly over the elapsed whole
months, and — provided the elapsed months do not exceed the tenure —
that payout is at most the full-term maturity amount of the booking
formula.  (When closure happens after the tenure has fully elapsed the
payout can exceed it, see the counterexample.) -/
theorem premature_close_le_full_maturity (fd : FixedDeposit) (m : ℕ)
    (penaltyRate : ℚ) (hact : fd.status = FDStatus.active)
    (hp : 0 < fd.principal_amount) (hr : 0 < fd.interest_rate)
    (ht : 0 < fd.tenure_months) (hpen : 0 ≤ penaltyRate)
    (hm : (m : ℚ) ≤ fd.tenure_months) :
    ∃ fd', prematureClose fd m penaltyRate = .ok fd' ∧
      fd'.status = FDStatus.premature_closed ∧
      fd'.maturity_amount = round2 ((fd.principal_amount : ℝ) *
        (1 + ((max 0 (fd.interest_rate - penaltyRate) : ℚ) : ℝ) / 100 / 4) ^
          ((4 : ℝ) * ((m : ℝ) / 12))) ∧
      fd'.maturity_amount ≤
        calculateMaturityAmount fd.principal_amount fd.interest_rate
          fd.tenure_months := by
  refine Exists.intro
    { fd with
      status := FDStatus.premature_closed
      maturity_amount := round2 ((fd.principal_amount : ℝ) *
        (1 + ((max 0 (fd.interest_rate - penaltyRate) : ℚ) : ℝ) /
            100 / 4) ^ ((4 : ℝ) * ((m : ℝ) / 12))) }
    ⟨?_, rfl, rfl, ?_⟩
  · unfold prematureClose
    rw [if_neg (by simp [hact])]
  · have hguard : ¬ (fd.principal_amount = 0 ∨ fd.interest_rate = 0 ∨
        fd.tenure_months = 0) := by
      push_neg
      exact ⟨ne_of_gt hp, ne_of_gt hr, ne_of_gt ht⟩
    show round2 _ ≤ calculateMaturityAmount _ _ _
    unfold calculateMaturityAmount
    rw [if_neg hguard]
    apply round2_mono
    have hq1 : (0 : ℚ) ≤ max 0 (fd.interest_rate - penaltyRate) :=
      le_max_left _ _
    have hq2 : max 0 (fd.interest_rate - penaltyRate) ≤ fd.interest_rate :=
      max_le (le_of_lt hr) (sub_le_self _ hpen)
    have hR0 : (0 : ℝ) ≤ ((max 0 (fd.interest_rate - penaltyRate) : ℚ) : ℝ) := by
      exact_mod_cast hq1
    have hRr : ((max 0 (fd.interest_rate - penaltyRate) : ℚ) : ℝ) ≤
        (fd.interest_rate : ℝ) := by exact_mod_cast hq2
    have hb0 : (0 : ℝ) ≤
        1 + ((max 0 (fd.interest_rate - penaltyRate) : ℚ) : ℝ) / 100 / 4 := by
      linarith
    have hbb : 1 + ((max 0 (fd.interest_rate - penaltyRate) : ℚ) : ℝ) / 100 / 4 ≤
        1 + ((fd.interest_rate : ℚ) : ℝ) / 100 / 4 := by linarith
    have hb1 : (1 : ℝ) ≤ 1 + ((fd.interest_rate : ℚ) : ℝ) / 100 / 4 := by
      have h0r : (0 : ℝ) ≤ ((fd.interest_rate : ℚ) : ℝ) := by
        exact_mod_cast le_of_lt hr
      linarith
    have he0 : (0 : ℝ) ≤ (4 : ℝ) * ((m : ℝ) / 12) := by positivity
    have hee : (4 : ℝ) * ((m : ℝ) / 12) ≤
        (4 : ℝ) * (((fd.tenure_months : ℚ) : ℝ) / 12) := by
      have hmr : (m : ℝ) ≤ ((fd.tenure_months : ℚ) : ℝ) := by
        exact_mod_cast hm
      linarith
    have hP0 : (0 : ℝ) ≤ (fd.principal_amount : ℝ) := by
      exact_mod_cast le_of_lt hp
    have hpow :
        (1 + ((max 0 (fd.interest_rate - penaltyRate) : ℚ) : ℝ) / 100 / 4) ^
            ((4 : ℝ) * ((m : ℝ) / 12)) ≤
          (1 + ((fd.interest_rate : ℚ) : ℝ) / 100 / 4) ^
            ((4 : ℝ) * (((fd.tenure_months : ℚ) : ℝ) / 12)) :=
      le_trans (Real.rpow_le_rpow hb0 hbb he0)
        (Real.rpow_le_rpow_of_exponent_le hb1 hee)
    exact mul_le_mul_of_nonneg_left hpow hP0

/-- Witness for `premature_close_le_full_maturity`: 1000 at 8% for 12
months, closed after 6 elapsed months with a 1% penalty. -/
theorem premature_close_le_full_maturity_witness :
    ∃ fd', prematureClose ⟨1000, 8, 12, calculateMaturityAmount 1000 8 12,
        FDStatus.active⟩ 6 1 = .ok fd' ∧
      fd'.status = FDStatus.premature_closed ∧
      fd'.maturity_amount = round2 (((1000 : ℚ) : ℝ) *
        (1 + ((max 0 ((8 : ℚ) - 1) : ℚ) : ℝ) / 100 / 4) ^
          ((4 : ℝ) * (((6 : ℕ) : ℝ) / 12))) ∧
      fd'.maturity_amount ≤ calculateMaturityAmount 1000 8 12 :=
  premature_close_le_full_maturity
    ⟨1000, 8, 12, calculateMaturityAmount 1000 8 12, FDStatus.active⟩ 6 1
    rfl (by norm_num) (by norm_num) (by norm_num) (by norm_num) (by norm_num)

end FD

/-- The `SHARE_STATUS` enumeration of `Share.js`. -/
inductive ShareStatus
  | active
  | transferred
  | redeemed
  | suspended
  | pending
deriving DecidableEq, Repr

/-- A `members` row as read by the share and dividend code; `active`
models `status === 'active'`. -/
structure Member where
  member_id : ℕ
  active : Bool
deriving DecidableEq, Repr

/-- A `shares` table row (a share holding): the fields read by
`Share.transfer` (member, count, status) and by
`Dividend.distribute` (additionally value and creation date;
timestamps are abstract ordered ticks). -/
structure ShareRow where
  id : ℕ
  member_id : ℕ
  number_of_shares : ℤ
  share_value : ℚ
  status : ShareStatus
  created_at : ℕ
deriving DecidableEq, Repr

namespace Dividends

/-- The `DIVIDEND_STATUS` enumeration of `Dividend.js`. -/
inductive DivStatus
  | declared
  | approved
  | paid
  | cancelled
  | pending
deriving DecidableEq, Repr

/-- The `DIVIDEND_TYPES` enumeration of `Dividend.js`. -/
inductive DivType
  | annual
  | interim
  | bonus
  | special
deriving DecidableEq, Repr

/-- A `banks` row as read by `Dividend.create`; `active` models
`status === 'active'`. -/
structure Bank where
  id : ℕ
  active : Bool
deriving DecidableEq, Repr

/-- A `dividends` row (the fields the lifecycle code reads/writes). -/
structure Dividend where
  id : ℕ
  dividend_year : ℤ
  dividend_type : DivType
  dividend_rate : ℚ
  total_dividend_amount : ℚ
  bank_id : ℕ
  status : DivStatus
  record_date : ℕ
deriving DecidableEq, Repr

/-- A `dividend_distributions` row as built by `distribute`. -/
structure Distribution where
  dividend_id : ℕ
  member_id : ℕ
  number_of_shares : ℤ
  dividend_amount : ℚ
deriving DecidableEq, Repr

/-- The tables `Dividend.js` touches. -/
structure DivState where
  banks : List Bank
  members : List Member
  shares : List ShareRow
  dividends : List Dividend
  distributions : List Distribution
deriving DecidableEq, Repr

inductive DivError
  | bankNotFound
  | bankNotActive
  | duplicateDividend
  | invalidTransition
deriving DecidableEq, Repr

/-- The check `share.members.status === 'active'` via the join: the member row
looked up by id is active.  (A share row whose member is missing would
crash the original with a TypeError; such states do not arise.) -/
def memberActive (s : DivState) (mid : ℕ) : Bool :=
  match s.members.find? (fun m => m.member_id = mid) with
  | some m => m.active
  | none => false

/-- The `shares` query of `distribute`: `status = 'active'` and
`created_at ≤ record_date`. -/
def eligibleShares (s : DivState) (d : Dividend) : List ShareRow :=
  s.shares.filter
    (fun sh => sh.status = ShareStatus.active ∧ sh.created_at ≤ d.record_date)

/-- The distribution rows `distribute` builds: one per eligible share
row whose member is active, paying
`number_of_shares * share_value * dividend_rate / 100`. -/
def distribRows (s : DivState) (d : Dividend) : List Distribution :=
  ((eligibleShares s d).filter (fun sh => memberActive s sh.member_id)).map
    (fun sh =>
      { dividend_id := d.id
        member_id := sh.member_id
        number_of_shares := sh.number_of_shares
        dividend_amount :=
          (sh.number_of_shares : ℚ) * sh.share_value * d.dividend_rate / 100 })

/-- The `update ... eq('id', this.id)` write-back on the dividends
table. -/
def updateDividendRow (l : List Dividend) (d : Dividend) : List Dividend :=
  l.map (fun x => if x.id = d.id then d else x)

/-- The return value of `distribute()` (`total_members`, `total_amount`). -/
structure DistributeResult where
  total_members : ℕ
  total_amount : ℚ
deriving DecidableEq, Repr

/-- The method `Dividend.distribute` (`Dividend.js` lines 256–326): rejects unless
the current status is `approved` — before any read or write — then
builds the distribution batch, inserts it, and updates the dividend to
`paid` with `total_dividend_amount` set to the batch total.  Returns
the updated dividend (the JS mutates `this` via `Object.assign`) and
the summary. -/
def distribute (s : DivState) (d : Dividend) :
    DivState × Except DivError (Dividend × DistributeResult) :=
  if d.status ≠ DivStatus.approved then (s, .error .invalidTransition)
  else
    let rows := distribRows s d
    let total := (rows.map (fun r => r.dividend_amount)).sum
    let d' : Dividend :=
      { d with status := DivStatus.paid, total_dividend_amount := total }
    ({ s with
        distributions := s.distributions ++ rows
        dividends := updateDividendRow s.dividends d' },
     .ok (d', ⟨rows.length, total⟩))

/-- The bank lookup of `Dividend.create`. -/
def bankLookup (s : DivState) (bid : ℕ) : Option Bank :=
  s.banks.find? (fun b => b.id = bid)

/-- The rows matched by `create`'s duplicate query: same year, type and
bank — with **no** filter on status. -/
def matchingDividends (s : DivState) (year : ℤ) (ty : DivType) (bid : ℕ) :
    List Dividend :=
  s.dividends.filter
    (fun dv => dv.dividend_year = year ∧ dv.dividend_type = ty ∧
      dv.bank_id = bid)

/-- Supabase `.maybeSingle()`: the row when exactly one matches, else null (on
two or more matches supabase reports an error and null data; the
source only tests the data). -/
def maybeSingle {α : Type} : List α → Option α
  | [x] => some x
  | _ => none

/-- The method `Dividend.create` (`Dividend.js` lines 84–135): bank must exist and
be active; then the duplicate query on `(dividend_year, dividend_type,
bank_id)` — any status, cancelled included — blocks creation when it
returns a row; otherwise the validated record is inserted.  (Joi
validation of ranges/formats happens before this logic and is outside
the engine.) -/
def create (s : DivState) (nd : Dividend) :
    DivState × Except DivError Dividend :=
  match bankLookup s nd.bank_id with
  | none => (s, .error .bankNotFound)
  | some bank =>
      if bank.active = false then (s, .error .bankNotActive)
      else
        match maybeSingle (matchingDividends s nd.dividend_year
            nd.dividend_type nd.bank_id) with
        | some _ => (s, .error .duplicateDividend)
        | none => ({ s with dividends := s.dividends ++ [nd] }, .ok nd)

/-- C7: `distribute()` fails — leaving every table untouched — unless
the status is `approved`; on success the dividend becomes `paid`, so a
second `distribute()` on the result fails with the transition error and
the state (in particular the distributions table) is exactly what the
first call left. -/
theorem distribute_only_approved (s : DivState) (d : Dividend) :
    (d.status ≠ DivStatus.approved →
      distribute s d = (s, .error DivError.invalidTransition)) ∧
    (d.status = DivStatus.approved →
      ∃ d' res, (distribute s d).2 = .ok (d', res) ∧
        d'.status = DivStatus.paid ∧
        distribute (distribute s d).1 d' =
          ((distribute s d).1, .error DivError.invalidTransition)) := by
  constructor
  · intro h
    unfold distribute
    rw [if_pos h]
  · intro h
    have hne : ¬ (d.status ≠ DivStatus.approved) := by simp [h]
    refine Exists.intro
      { d with
        status := DivStatus.paid
        total_dividend_amount :=
          ((distribRows s d).map (fun r => r.dividend_amount)).sum }
      (Exists.intro
        ⟨(distribRows s d).length,
         ((distribRows s d).map (fun r => r.dividend_amount)).sum⟩
        ⟨?_, rfl, ?_⟩)
    · unfold distribute
      rw [if_neg hne]
    · unfold distribute
      rw [if_neg hne, if_pos (by simp)]

/-- Witness for `distribute_only_approved`: one approved dividend, one
active member holding 10 shares of value 5 as of the record date. -/
theorem distribute_only_approved_witness :
    ∃ d' res,
      (distribute ⟨[], [⟨1, true⟩], [⟨0, 1, 10, 5, ShareStatus.active, 0⟩],
          [⟨7, 2024, DivType.annual, 10, 0, 0, DivStatus.approved, 100⟩], []⟩
        ⟨7, 2024, DivType.annual, 10, 0, 0, DivStatus.approved, 100⟩).2 =
        .ok (d', res) ∧
      d'.status = DivStatus.paid ∧
      distribute
          (distribute ⟨[], [⟨1, true⟩],
            [⟨0, 1, 10, 5, ShareStatus.active, 0⟩],
            [⟨7, 2024, DivType.annual, 10, 0, 0, DivStatus.approved, 100⟩], []⟩
            ⟨7, 2024, DivType.annual, 10, 0, 0, DivStatus.approved, 100⟩).1 d' =
        ((distribute ⟨[], [⟨1, true⟩],
            [⟨0, 1, 10, 5, ShareStatus.active, 0⟩],
            [⟨7, 2024, DivType.annual, 10, 0, 0, DivStatus.approved, 100⟩], []⟩
            ⟨7, 2024, DivType.annual, 10, 0, 0, DivStatus.approved, 100⟩).1,
          .error DivError.invalidTransition) :=
  (distribute_only_approved
    ⟨[], [⟨1, true⟩], [⟨0, 1, 10, 5, ShareStatus.active, 0⟩],
      [⟨7, 2024, DivType.annual, 10, 0, 0, DivStatus.approved, 100⟩], []⟩
    ⟨7, 2024, DivType.annual, 10, 0, 0, DivStatus.approved, 100⟩).2 rfl

/-- Evaluation of `create` once the bank is found and active. -/
lemma create_bank_ok (s : DivState) (nd : Dividend) (bank : Bank)
    (hbank : bankLookup s nd.bank_id = some bank)
    (hact : bank.active = true) :
    create s nd =
      match maybeSingle (matchingDividends s nd.dividend_year
          nd.dividend_type nd.bank_id) with
      | some _ => (s, .error .duplicateDividend)
      | none => ({ s with dividends := s.dividends ++ [nd] }, .ok nd) := by
  unfold create
  rw [hbank]
  dsimp only
  rw [hact]
  simp

lemma maybeSingle_eq_some {α : Type} (l : List α) (x : α)
    (h : maybeSingle l = some x) : l = [x] := by
  match l with
  | [] => simp [maybeSingle] at h
  | [y] =>
      simp only [maybeSingle, Option.some.injEq] at h
      rw [h]
  | y :: z :: rest => simp [maybeSingle] at h

lemma maybeSingle_eq_none {α : Type} (l : List α)
    (h : maybeSingle l = none) : l.length ≠ 1 := by
  match l with
  | [] => simp
  | [y] => simp [maybeSingle] at h
  | y :: z :: rest => simp

/-- Corresponds to claim C8 as stated in the spec, refuted: with a
single **cancelled** annual dividend for 2024 on the books, declaring
an annual dividend for 2024 again fails with the duplicate error — the
duplicate query never filters out cancelled rows. -/
theorem declare_after_cancel_counterexample :
    (⟨0, 2024, DivType.annual, 10, 0, 0, DivStatus.cancelled, 100⟩ :
        Dividend).status = DivStatus.cancelled ∧
    create ⟨[⟨0, true⟩], [], [],
        [⟨0, 2024, DivType.annual, 10, 0, 0, DivStatus.cancelled, 100⟩], []⟩
      ⟨1, 2024, DivType.annual, 12, 0, 0, DivStatus.pending, 100⟩ =
      (⟨[⟨0, true⟩], [], [],
        [⟨0, 2024, DivType.annual, 10, 0, 0, DivStatus.cancelled, 100⟩], []⟩,
       .error DivError.duplicateDividend) := by
  constructor
  · rfl
  · norm_num [create, bankLookup, matchingDividends, maybeSingle,
      List.find?, List.filter]

/-- C8 (amended): for an existing active bank, declaration fails with
the duplicate error exactly when the duplicate query returns a row —
i.e. when exactly one dividend with the same `(year, type)` for the
bank exists, **of any status, cancelled included** (with two or more
matching rows `.maybeSingle()` yields null and creation proceeds);
when no such dividend exists the declaration is inserted. -/
theorem declare_duplicate_any_status (s : DivState) (nd : Dividend)
    (bank : Bank) (hbank : bankLookup s nd.bank_id = some bank)
    (hact : bank.active = true) :
    ((create s nd).2 = .error DivError.duplicateDividend ↔
      (matchingDividends s nd.dividend_year nd.dividend_type
        nd.bank_id).length = 1) ∧
    ((matchingDividends s nd.dividend_year nd.dividend_type
        nd.bank_id).length ≠ 1 →
      create s nd = ({ s with dividends := s.dividends ++ [nd] }, .ok nd)) := by
  rw [create_bank_ok s nd bank hbank hact]
  cases hms : maybeSingle (matchingDividends s nd.dividend_year
      nd.dividend_type nd.bank_id) with
  | none =>
      constructor
      · simp only [iff_iff_implies_and_implies]
        exact ⟨fun h => by simp at h,
          fun h => absurd h (maybeSingle_eq_none _ hms)⟩
      · intro _
        rfl
  | some x =>
      have hlen : (matchingDividends s nd.dividend_year nd.dividend_type
          nd.bank_id).length = 1 := by
        rw [maybeSingle_eq_some _ x hms]
        rfl
      exact ⟨by simp [hlen], fun h => absurd hlen h⟩

/-- Witness for `declare_duplicate_any_status`: an empty dividends
table, so the declaration is inserted. -/
theorem declare_duplicate_any_status_witness :
    ((create ⟨[⟨0, true⟩], [], [], [], []⟩
        ⟨1, 2024, DivType.annual, 12, 0, 0, DivStatus.pending, 100⟩).2 =
      .error DivError.duplicateDividend ↔
      (matchingDividends ⟨[⟨0, true⟩], [], [], [], []⟩ 2024 DivType.annual
        0).length = 1) ∧
    ((matchingDividends ⟨[⟨0, true⟩], [], [], [], []⟩ 2024 DivType.annual
        0).length ≠ 1 →
      create ⟨[⟨0, true⟩], [], [], [], []⟩
          ⟨1, 2024, DivType.annual, 12, 0, 0, DivStatus.pending, 100⟩ =
        ({ (⟨[⟨0, true⟩], [], [], [], []⟩ : DivState) with
            dividends := (⟨[⟨0, true⟩], [], [], [], []⟩ : DivState).dividends
              ++ [⟨1, 2024, DivType.annual, 12, 0, 0, DivStatus.pending,
                100⟩] },
         .ok ⟨1, 2024, DivType.annual, 12, 0, 0, DivStatus.pending, 100⟩)) :=
  declare_duplicate_any_status ⟨[⟨0, true⟩], [], [], [], []⟩
    ⟨1, 2024, DivType.annual, 12, 0, 0, DivStatus.pending, 100⟩ ⟨0, true⟩
    (by norm_num [bankLookup, List.find?]) rfl

end Dividends

namespace Shares

/-- The `SHARE_TRANSACTION_TYPES` enumeration of `Share.js`. -/
inductive ShareTxnType
  | purchase
  | transfer
  | redemption
  | dividend
  | bonus_issue
deriving DecidableEq, Repr

/-- A `share_transactions` row as inserted by `Share.createTransaction`
(the signed `number_of_shares` / `amount` ledger). -/
structure ShareTxn where
  member_id : ℕ
  transaction_type : ShareTxnType
  number_of_shares : ℤ
  amount : ℚ
deriving DecidableEq, Repr

/-- The tables `Share.transfer` touches: it reads `members` and
`shares`, and appends to `share_transactions`. -/
structure ShareState where
  members : List Member
  shares : List ShareRow
  share_transactions : List ShareTxn
deriving DecidableEq, Repr

inductive ShareError
  | validationError
  | membersNotFound
  | membersNotActive
  | insufficientShares
deriving DecidableEq, Repr

/-- The sufficiency read of `Share.transfer`: the sum of
`number_of_shares` over the member's **active rows of the `shares`
table** (`.eq('member_id', ...) .eq('status', 'active')` then
`reduce`). -/
def activeShareSum (s : ShareState) (mid : ℕ) : ℤ :=
  ((s.shares.filter
      (fun sh => sh.member_id = mid ∧ sh.status = ShareStatus.active)).map
    (fun sh => sh.number_of_shares)).sum

/-- The two rows `Share.transfer` appends through
`Share.createTransaction`: `-n`/`-price` for the source and
`+n`/`+price` for the destination. -/
def transferRows (from_id to_id : ℕ) (n : ℤ) (price : ℚ) : List ShareTxn :=
  [⟨from_id, ShareTxnType.transfer, -n, -price⟩,
   ⟨to_id, ShareTxnType.transfer, n, price⟩]

/-- The method `Share.transfer` (`Share.js` lines 235–304).  The Joi schema
requires an integer share count ≥ 1 and a price ≥ 0 (it imposes **no**
relation between the two member ids); then both members must exist and
be active; then the source's active holdings must cover the count;
then two signed transaction rows are inserted.  No `shares` row is
written.  An error leaves the store untouched. -/
def transfer (s : ShareState) (from_id to_id : ℕ) (n : ℤ) (price : ℚ) :
    ShareState × Except ShareError Unit :=
  if n < 1 ∨ price < 0 then (s, .error .validationError)
  else
    match s.members.find? (fun m => m.member_id = from_id),
        s.members.find? (fun m => m.member_id = to_id) with
    | some fromMember, some toMember =>
        if fromMember.active = false ∨ toMember.active = false then
          (s, .error .membersNotActive)
        else if activeShareSum s from_id < n then
          (s, .error .insufficientShares)
        else
          ({ s with share_transactions :=
              s.share_transactions ++ transferRows from_id to_id n price },
           .ok ())
    | _, _ => (s, .error .membersNotFound)

/-- The signed total of the share-transaction ledger over all
members. -/
def totalTxnShares (s : ShareState) : ℤ :=
  (s.share_transactions.map (fun t => t.number_of_shares)).sum

/-- Iterating `k` repetitions of the same transfer; the flag stays `true` only
while every call succeeds. -/
def transferIter (from_id to_id : ℕ) (n : ℤ) (price : ℚ) :
    ℕ → ShareState → ShareState × Bool
  | 0, s => (s, true)
  | k + 1, s =>
      match transfer s from_id to_id n price with
      | (s', .ok _) => transferIter from_id to_id n price k s'
      | (s', .error _) => (s', false)

/-- Evaluation of `transfer` once validation passed and both members
were found. -/
lemma transfer_found (s : ShareState) (a b : ℕ) (n : ℤ) (p : ℚ)
    (fm tm : Member)
    (hf : s.members.find? (fun m => m.member_id = a) = some fm)
    (ht : s.members.find? (fun m => m.member_id = b) = some tm)
    (hval : ¬ (n < 1 ∨ p < 0)) :
    transfer s a b n p =
      if fm.active = false ∨ tm.active = false then
        (s, .error .membersNotActive)
      else if activeShareSum s a < n then (s, .error .insufficientShares)
      else
        ({ s with share_transactions :=
            s.share_transactions ++ transferRows a b n p }, .ok ()) := by
  unfold transfer
  rw [if_neg hval, hf, ht]

/-- A successful `transfer` in anatomy: positive validated inputs,
both members found and active, sufficient holdings, and the poststate
is exactly the prestate with the two rows appended. -/
lemma transfer_ok (s s' : ShareState) (a b : ℕ) (n : ℤ) (p : ℚ) (u : Unit)
    (h : transfer s a b n p = (s', .ok u)) :
    ¬ (n < 1 ∨ p < 0) ∧
    (∃ fm tm, s.members.find? (fun m => m.member_id = a) = some fm ∧
      s.members.find? (fun m => m.member_id = b) = some tm ∧
      fm.active = true ∧ tm.active = true) ∧
    ¬ activeShareSum s a < n ∧
    s' = { s with share_transactions :=
      s.share_transactions ++ transferRows a b n p } := by
  unfold transfer at h
  split at h
  next => simp at h
  next hval =>
    split at h
    next fm tm hfm htm =>
      split at h
      next => simp at h
      next hactive =>
        split at h
        next => simp at h
        next hsum =>
          rw [Prod.mk.injEq] at h
          push_neg at hactive
          refine ⟨hval, ⟨fm, tm, hfm, htm, ?_, ?_⟩, hsum, h.1.symm⟩
          · simpa using hactive.1
          · simpa using hactive.2
    next => simp at h

lemma transfer_not_found (s : ShareState) (a b : ℕ) (n : ℤ) (p : ℚ)
    (hval : ¬ (n < 1 ∨ p < 0))
    (h : s.members.find? (fun m => m.member_id = a) = none ∨
      s.members.find? (fun m => m.member_id = b) = none) :
    transfer s a b n p = (s, .error .membersNotFound) := by
  unfold transfer
  rw [if_neg hval]
  rcases h with ha | hb
  · rw [ha]
  · rw [hb]
    cases s.members.find? (fun m => m.member_id = a) <;> rfl

lemma totalTxnShares_append (s : ShareState) (a b : ℕ) (n : ℤ) (p : ℚ) :
    ((s.share_transactions ++ transferRows a b n p).map
      (fun t => t.number_of_shares)).sum = totalTxnShares s := by
  simp [totalTxnShares, transferRows]

/-- Corresponds to the self-transfer clause of claim C9, refuted: an
active member with 100 active shares "transfers" 10 shares **to
themselves** and the call succeeds (two offsetting rows are recorded)
— nothing in the source compares `from_member_id` with
`to_member_id`. -/
theorem self_transfer_counterexample :
    transfer ⟨[⟨1, true⟩], [⟨0, 1, 100, 10, ShareStatus.active, 0⟩], []⟩
        1 1 10 5 =
      (⟨[⟨1, true⟩], [⟨0, 1, 100, 10, ShareStatus.active, 0⟩],
        [⟨1, ShareTxnType.transfer, -10, -5⟩,
         ⟨1, ShareTxnType.transfer, 10, 5⟩]⟩,
       .ok ()) := by
  norm_num [transfer, transferRows, activeShareSum, List.find?, List.filter]

/-- C9 (amended): for validated inputs (count ≥ 1, price ≥ 0) a
transfer fails if either member is missing, fails if either member is
inactive, fails with the insufficient-shares error exactly when the
source's active holdings sum is below the count — each failure leaving
the store untouched — and otherwise (even when source = destination)
succeeds appending exactly the `-n`/`-price` and `+n`/`+price` rows,
so the signed total of the share-transaction ledger is unchanged. -/
theorem transfer_rules (s : ShareState) (a b : ℕ) (n : ℤ) (p : ℚ)
    (hn : 1 ≤ n) (hp : 0 ≤ p) :
    ((s.members.find? (fun m => m.member_id = a) = none ∨
      s.members.find? (fun m => m.member_id = b) = none) →
      transfer s a b n p = (s, .error ShareError.membersNotFound)) ∧
    (∀ fm tm, s.members.find? (fun m => m.member_id = a) = some fm →
      s.members.find? (fun m => m.member_id = b) = some tm →
      ((fm.active = false ∨ tm.active = false) →
        transfer s a b n p = (s, .error ShareError.membersNotActive)) ∧
      (fm.active = true → tm.active = true →
        ((transfer s a b n p).2 = .error ShareError.insufficientShares ↔
          activeShareSum s a < n) ∧
        (activeShareSum s a < n → (transfer s a b n p).1 = s) ∧
        (n ≤ activeShareSum s a →
          transfer s a b n p =
            ({ s with share_transactions :=
                s.share_transactions ++ transferRows a b n p }, .ok ()) ∧
          totalTxnShares (transfer s a b n p).1 = totalTxnShares s))) := by
  have hval : ¬ (n < 1 ∨ p < 0) := by
    push_neg
    exact ⟨not_lt.mp (by simpa using hn), hp⟩
  refine ⟨transfer_not_found s a b n p hval, ?_⟩
  intro fm tm hfm htm
  have hfound := transfer_found s a b n p fm tm hfm htm hval
  constructor
  · intro hinact
    rw [hfound, if_pos hinact]
  · intro hfa hta
    have hact : ¬ (fm.active = false ∨ tm.active = false) := by
      simp [hfa, hta]
    by_cases hsum : activeShareSum s a < n
    · have hres : transfer s a b n p = (s, .error .insufficientShares) := by
        rw [hfound, if_neg hact, if_pos hsum]
      rw [hres]
      exact ⟨by simp [hsum], fun _ => rfl, fun hle => absurd hsum (not_lt.mpr hle)⟩
    · have hres : transfer s a b n p =
          ({ s with share_transactions :=
              s.share_transactions ++ transferRows a b n p }, .ok ()) := by
        rw [hfound, if_neg hact, if_neg hsum]
      rw [hres]
      refine ⟨by simp [hsum], fun hlt => absurd hlt hsum, fun _ => ⟨rfl, ?_⟩⟩
      exact totalTxnShares_append s a b n p

/-- Witness for `transfer_rules`: the spec's §8 scenario, member 1
holding 100 shares transfers 30 to member 2 at price 15. -/
theorem transfer_rules_witness :
    (((⟨[⟨1, true⟩, ⟨2, true⟩], [⟨0, 1, 100, 10, ShareStatus.active, 0⟩],
        []⟩ : ShareState).members.find? (fun m => m.member_id = 1) = none ∨
      ((⟨[⟨1, true⟩, ⟨2, true⟩], [⟨0, 1, 100, 10, ShareStatus.active, 0⟩],
        []⟩ : ShareState)).members.find? (fun m => m.member_id = 2) = none) →
      transfer ⟨[⟨1, true⟩, ⟨2, true⟩],
          [⟨0, 1, 100, 10, ShareStatus.active, 0⟩], []⟩ 1 2 30 15 =
        (⟨[⟨1, true⟩, ⟨2, true⟩], [⟨0, 1, 100, 10, ShareStatus.active, 0⟩],
          []⟩, .error ShareError.membersNotFound)) ∧
    (∀ fm tm,
      ((⟨[⟨1, true⟩, ⟨2, true⟩], [⟨0, 1, 100, 10, ShareStatus.active, 0⟩],
        []⟩ : ShareState)).members.find? (fun m => m.member_id = 1) =
          some fm →
      ((⟨[⟨1, true⟩, ⟨2, true⟩], [⟨0, 1, 100, 10, ShareStatus.active, 0⟩],
        []⟩ : ShareState)).members.find? (fun m => m.member_id = 2) =
          some tm →
      ((fm.active = false ∨ tm.active = false) →
        transfer ⟨[⟨1, true⟩, ⟨2, true⟩],
            [⟨0, 1, 100, 10, ShareStatus.active, 0⟩], []⟩ 1 2 30 15 =
          (⟨[⟨1, true⟩, ⟨2, true⟩],
            [⟨0, 1, 100, 10, ShareStatus.active, 0⟩], []⟩,
           .error ShareError.membersNotActive)) ∧
      (fm.active = true → tm.active = true →
        ((transfer ⟨[⟨1, true⟩, ⟨2, true⟩],
            [⟨0, 1, 100, 10, ShareStatus.active, 0⟩], []⟩ 1 2 30 15).2 =
            .error ShareError.insufficientShares ↔
          activeShareSum ⟨[⟨1, true⟩, ⟨2, true⟩],
            [⟨0, 1, 100, 10, ShareStatus.active, 0⟩], []⟩ 1 < 30) ∧
        (activeShareSum ⟨[⟨1, true⟩, ⟨2, true⟩],
            [⟨0, 1, 100, 10, ShareStatus.active, 0⟩], []⟩ 1 < 30 →
          (transfer ⟨[⟨1, true⟩, ⟨2, true⟩],
            [⟨0, 1, 100, 10, ShareStatus.active, 0⟩], []⟩ 1 2 30 15).1 =
            ⟨[⟨1, true⟩, ⟨2, true⟩],
              [⟨0, 1, 100, 10, ShareStatus.active, 0⟩], []⟩) ∧
        (30 ≤ activeShareSum ⟨[⟨1, true⟩, ⟨2, true⟩],
            [⟨0, 1, 100, 10, ShareStatus.active, 0⟩], []⟩ 1 →
          transfer ⟨[⟨1, true⟩, ⟨2, true⟩],
              [⟨0, 1, 100, 10, ShareStatus.active, 0⟩], []⟩ 1 2 30 15 =
            ({ (⟨[⟨1, true⟩, ⟨2, true⟩],
                [⟨0, 1, 100, 10, ShareStatus.active, 0⟩],
                []⟩ : ShareState) with
               share_transactions :=
                 (⟨[⟨1, true⟩, ⟨2, true⟩],
                   [⟨0, 1, 100, 10, ShareStatus.active, 0⟩],
                   []⟩ : ShareState).share_transactions ++
                   transferRows 1 2 30 15 }, .ok ()) ∧
          totalTxnShares (transfer ⟨[⟨1, true⟩, ⟨2, true⟩],
              [⟨0, 1, 100, 10, ShareStatus.active, 0⟩], []⟩ 1 2 30 15).1 =
            totalTxnShares ⟨[⟨1, true⟩, ⟨2, true⟩],
              [⟨0, 1, 100, 10, ShareStatus.active, 0⟩], []⟩))) :=
  transfer_rules ⟨[⟨1, true⟩, ⟨2, true⟩],
    [⟨0, 1, 100, 10, ShareStatus.active, 0⟩], []⟩ 1 2 30 15
    (by norm_num) (by norm_num)

lemma activeShareSum_shares_eq (s s' : ShareState) (mid : ℕ)
    (h : s'.shares = s.shares) :
    activeShareSum s' mid = activeShareSum s mid := by
  unfold activeShareSum
  rw [h]

/-- A successful transfer leaves its own preconditions intact, so the
identical call succeeds again from the poststate. -/
lemma transfer_ok_again (s s' : ShareState) (a b : ℕ) (n : ℤ) (p : ℚ)
    (u : Unit) (h : transfer s a b n p = (s', .ok u)) :
    transfer s' a b n p =
      ({ s' with share_transactions :=
          s'.share_transactions ++ transferRows a b n p }, .ok ()) := by
  obtain ⟨hval, ⟨fm, tm, hfm, htm, hfa, hta⟩, hsum, hs'⟩ :=
    transfer_ok s s' a b n p u h
  have hmem : s'.members = s.members := by rw [hs']
  have hsh : s'.shares = s.shares := by rw [hs']
  have hfm' : s'.members.find? (fun m => m.member_id = a) = some fm := by
    rw [hmem]
    exact hfm
  have htm' : s'.members.find? (fun m => m.member_id = b) = some tm := by
    rw [hmem]
    exact htm
  have hsum' : ¬ activeShareSum s' a < n := by
    rw [activeShareSum_shares_eq s s' a hsh]
    exact hsum
  rw [transfer_found s' a b n p fm tm hfm' htm' hval,
    if_neg (by simp [hfa, hta]), if_neg hsum']

lemma transferIter_all_ok (a b : ℕ) (n : ℤ) (p : ℚ) :
    ∀ (k : ℕ) (s s' : ShareState) (u : Unit),
      transfer s a b n p = (s', .ok u) →
      (transferIter a b n p k s).2 = true := by
  intro k
  induction k with
  | zero =>
      intro s s' u _
      rfl
  | succ k ih =>
      intro s s' u h
      simp only [transferIter]
      rw [h]
      exact ih s' _ () (transfer_ok_again s s' a b n p u h)

/-- C10: a successful `Share.transfer` writes no `shares` (holdings)
row and no `members` row — it only appends the two transaction rows —
so the active-holdings sum its own sufficiency check reads is
unchanged, and any number of repetitions of the same transfer keeps
succeeding. -/
theorem transfer_frame (s s' : ShareState) (a b : ℕ) (n : ℤ) (p : ℚ)
    (u : Unit) (h : transfer s a b n p = (s', .ok u)) :
    s'.shares = s.shares ∧ s'.members = s.members ∧
    s'.share_transactions =
      s.share_transactions ++ transferRows a b n p ∧
    activeShareSum s' a = activeShareSum s a ∧
    (∀ k, (transferIter a b n p k s).2 = true) := by
  obtain ⟨_, _, _, hs'⟩ := transfer_ok s s' a b n p u h
  have hsh : s'.shares = s.shares := by rw [hs']
  refine ⟨hsh, by rw [hs'], by rw [hs'],
    activeShareSum_shares_eq s s' a hsh,
    fun k => transferIter_all_ok a b n p k s s' u h⟩

/-- Witness for `transfer_frame` at the concrete 30-share transfer. -/
theorem transfer_frame_witness :
    (⟨[⟨1, true⟩, ⟨2, true⟩], [⟨0, 1, 100, 10, ShareStatus.active, 0⟩],
      [⟨1, ShareTxnType.transfer, -30, -15⟩,
       ⟨2, ShareTxnType.transfer, 30, 15⟩]⟩ : ShareState).shares =
      (⟨[⟨1, true⟩, ⟨2, true⟩], [⟨0, 1, 100, 10, ShareStatus.active, 0⟩],
        []⟩ : ShareState).shares ∧
    (⟨[⟨1, true⟩, ⟨2, true⟩], [⟨0, 1, 100, 10, ShareStatus.active, 0⟩],
      [⟨1, ShareTxnType.transfer, -30, -15⟩,
       ⟨2, ShareTxnType.transfer, 30, 15⟩]⟩ : ShareState).members =
      (⟨[⟨1, true⟩, ⟨2, true⟩], [⟨0, 1, 100, 10, ShareStatus.active, 0⟩],
        []⟩ : ShareState).members ∧
    (⟨[⟨1, true⟩, ⟨2, true⟩], [⟨0, 1, 100, 10, ShareStatus.active, 0⟩],
      [⟨1, ShareTxnType.transfer, -30, -15⟩,
       ⟨2, ShareTxnType.transfer, 30, 15⟩]⟩ : ShareState).share_transactions =
      (⟨[⟨1, true⟩, ⟨2, true⟩], [⟨0, 1, 100, 10, ShareStatus.active, 0⟩],
        []⟩ : ShareState).share_transactions ++ transferRows 1 2 30 15 ∧
    activeShareSum ⟨[⟨1, true⟩, ⟨2, true⟩],
      [⟨0, 1, 100, 10, ShareStatus.active, 0⟩],
      [⟨1, ShareTxnType.transfer, -30, -15⟩,
       ⟨2, ShareTxnType.transfer, 30, 15⟩]⟩ 1 =
      activeShareSum ⟨[⟨1, true⟩, ⟨2, true⟩],
        [⟨0, 1, 100, 10, ShareStatus.active, 0⟩], []⟩ 1 ∧
    (∀ k, (transferIter 1 2 30 15 k ⟨[⟨1, true⟩, ⟨2, true⟩],
      [⟨0, 1, 100, 10, ShareStatus.active, 0⟩], []⟩).2 = true) :=
  transfer_frame ⟨[⟨1, true⟩, ⟨2, true⟩],
      [⟨0, 1, 100, 10, ShareStatus.active, 0⟩], []⟩
    ⟨[⟨1, true⟩, ⟨2, true⟩], [⟨0, 1, 100, 10, ShareStatus.active, 0⟩],
      [⟨1, ShareTxnType.transfer, -30, -15⟩,
       ⟨2, ShareTxnType.transfer, 30, 15⟩]⟩ 1 2 30 15 ()
    (by norm_num [transfer, transferRows, activeShareSum, List.find?,
      List.filter])

end Shares
